import Mathlib

/-!
Shallow embedding of the break-time tracker in `src/src/pages/Index.tsx`.

The component keeps an in-memory list of `BreakRecord`s, mirrors it to a
local-storage key on every change, and exposes the handlers `recordTime`,
`updateReason`, `deleteRecord` and `clearTable`.  Timestamps (JS `Date`
values) are modelled as natural numbers counting milliseconds since the
Unix epoch; `Math.floor` on non-negative quotients is `Nat` division.
User notifications (the `toast.success/error/warning` calls) are modelled
as values of type `Toast` returned alongside the new state; the optional
`description` payloads of the toasts, which embed locale-dependent
clock strings, are not modelled.
-/

/-- Severity of a user notification, mirroring `toast.success`,
`toast.error` and `toast.warning` from the source. -/
inductive ToastKind where
  | success
  | error
  | warning
deriving DecidableEq, Repr

/-- A user notification: severity plus the main message string. -/
structure Toast where
  kind : ToastKind
  message : String
deriving DecidableEq, Repr

/-- Mirrors a `toast.success(msg)` call. -/
def toastSuccess (msg : String) : Toast := ⟨ToastKind.success, msg⟩

/-- Mirrors a `toast.error(msg)` call. -/
def toastError (msg : String) : Toast := ⟨ToastKind.error, msg⟩

/-- Mirrors a `toast.warning(msg)` call. -/
def toastWarning (msg : String) : Toast := ⟨ToastKind.warning, msg⟩

/-- The `BreakRecord` interface of the source.  `startTime`/`endTime` are
epoch milliseconds (JS `Date`); `endTime` is `none` while the break is
active.  `status` is kept as a string, as in the erased TS runtime, with
values `"active"`, `"completed"` and `"overtime"`. -/
structure BreakRecord where
  id : String
  name : String
  start : String
  «end» : String
  duration : String
  reason : String
  startTime : Nat
  endTime : Option Nat
  status : String
deriving DecidableEq, Repr

/-- Fixed-width decimal printing, most significant digit first: the `w`
low decimal digits of `n` as characters. -/
def natToDigits : Nat → Nat → List Char
  | 0, _ => []
  | w + 1, n => natToDigits w (n / 10) ++ [Char.ofNat (48 + n % 10)]

/-- Reads a decimal digit string back into a number. -/
def readDigits (cs : List Char) : Nat :=
  cs.foldl (fun a c => 10 * a + (c.toNat - 48)) 0

/-- Fixed-width decimal rendering as a string. -/
def pad (w n : Nat) : String := String.mk (natToDigits w n)

/-- Models `date.toLocaleTimeString('en-US', {hour/minute/second:
'2-digit'})` from the source (`formatTime`), rendered at UTC: a 12-hour
clock string such as `"10:00:00 AM"`.  The locale machinery of the
browser is not available to the embedding; this renders the same fields
from the epoch-millisecond value.  No claim depends on the exact text,
only on it being a pure function of the timestamp. -/
def formatTime (t : Nat) : String :=
  let h := t / 3600000 % 24
  let mi := t / 60000 % 60
  let s := t / 1000 % 60
  let h12 := if h % 12 = 0 then 12 else h % 12
  pad 2 h12 ++ ":" ++ pad 2 mi ++ ":" ++ pad 2 s ++ (if h < 12 then " AM" else " PM")

/-- The source's `formatDuration(ms)`: floor to hours, minutes and
seconds; hours are printed only when positive. -/
def formatDuration (ms : Nat) : String :=
  let hours := ms / 3600000
  let minutes := ms % 3600000 / 60000
  let seconds := ms % 60000 / 1000
  if hours > 0 then
    toString hours ++ "h " ++ toString minutes ++ "m " ++ toString seconds ++ "s"
  else
    toString minutes ++ "m " ++ toString seconds ++ "s"

/-- The source's `getDurationColor(durationMs, status)`: CSS classes
chosen from the floored minute count, with a lighter palette for active
records. -/
def getDurationColor (durationMs : Nat) (status : String) : String :=
  let minutes := durationMs / 60000
  if status = "active" then
    if minutes > 32 then "bg-red-100 text-red-800 border-red-200"
    else if minutes > 30 then "bg-orange-100 text-orange-800 border-orange-200"
    else "bg-blue-100 text-blue-800 border-blue-200"
  else if minutes > 32 then "bg-red-500 text-white"
  else if minutes > 30 then "bg-orange-500 text-white"
  else "bg-green-100 text-green-800"

/-- Models `String.prototype.trim()`: strips leading and trailing
whitespace (the claims never involve exotic Unicode whitespace, so the
ASCII whitespace set of `Char.isWhitespace` suffices). -/
def jsTrim (s : String) : String :=
  String.mk (((s.data.dropWhile Char.isWhitespace).reverse.dropWhile Char.isWhitespace).reverse)

/-- Models `String.prototype.toLowerCase()` on the ASCII range (the
case-insensitive duplicate rule of the source). -/
def jsToLower (s : String) : String :=
  String.mk (s.data.map Char.toLower)

/-- The source's `validateAssociateName(name)`: rejects an
empty-after-trim name, and rejects a name already used by two records
(case-insensitively).  Returns the verdict together with the error
toasts it emitted. -/
def validateAssociateName (records : List BreakRecord) (name : String) :
    Bool × List Toast :=
  if jsTrim name = "" then
    (false, [toastError "Please enter an associate name"])
  else
    let nameCount :=
      (records.filter fun record => jsToLower record.name == jsToLower name).length
    if nameCount ≥ 2 then
      (false, [toastError (name ++ " has already been used twice. Cannot add more entries.")])
    else
      (true, [])

/-- The source's `startBreak(name)`: appends a fresh active record and
emits a success toast. -/
def startBreak (now : Nat) (name : String) (records : List BreakRecord) :
    List BreakRecord × List Toast :=
  let newRecord : BreakRecord :=
    { id := name ++ "-" ++ toString now
      name := name
      start := formatTime now
      «end» := ""
      duration := ""
      reason := ""
      startTime := now
      endTime := none
      status := "active" }
  (records ++ [newRecord], [toastSuccess ("Break started for " ++ name)])

/-- The body of the `map` inside the source's `endBreak(name)`: closes
one record if it is the active record for `name` (classifying
completed/overtime from the floored minute count and emitting the
matching toast), and leaves it unchanged otherwise. -/
def endBreakUpdate (now : Nat) (name : String) (record : BreakRecord) :
    BreakRecord × List Toast :=
  if record.name == name && record.status == "active" then
    let duration := now - record.startTime
    let minutes := duration / 60000
    let status := if minutes > 32 then "overtime" else "completed"
    let toasts :=
      if minutes > 32 then
        [toastError (name ++ "\u0027s break exceeded 32 minutes!")]
      else if minutes > 30 then
        [toastWarning (name ++ "\u0027s break exceeded 30 minutes")]
      else
        [toastSuccess ("Break ended for " ++ name)]
    ({ record with
        «end» := formatTime now
        duration := formatDuration duration
        endTime := some now
        status := status }, toasts)
  else
    (record, [])

/-- The source's `endBreak(name)`: maps `endBreakUpdate` over the
collection, gathering the toasts emitted for the records that close. -/
def endBreak (now : Nat) (name : String) (records : List BreakRecord) :
    List BreakRecord × List Toast :=
  (records.map fun r => (endBreakUpdate now name r).1,
   (records.map fun r => (endBreakUpdate now name r).2).flatten)

/-- The source's `recordTime()`, the single handler bound to the UI
control: trims the typed name, validates it, then ends the active break
for the name if one exists and starts one otherwise.  Validation runs
first; when it fails the collection is returned unchanged with the
validation toast. -/
def recordTime (now : Nat) (input : String) (records : List BreakRecord) :
    List BreakRecord × List Toast :=
  let trimmedName := jsTrim input
  let v := validateAssociateName records trimmedName
  if v.1 then
    if (records.find? fun r => r.name == trimmedName && r.status == "active").isSome then
      endBreak now trimmedName records
    else
      startBreak now trimmedName records
  else
    (records, v.2)

/-- The source's `updateReason(id, reason)`: overwrites the reason field
of the record with the matching id. -/
def updateReason (id reason : String) (records : List BreakRecord) :
    List BreakRecord :=
  records.map fun record =>
    if record.id == id then { record with reason := reason } else record

/-- The source's `deleteRecord(id)`: after window.confirm, filters the
record out and emits a success toast; a declined confirm is a no-op. -/
def deleteRecord (confirmed : Bool) (id : String) (records : List BreakRecord) :
    List BreakRecord × List Toast :=
  if confirmed then
    (records.filter fun record => record.id != id, [toastSuccess "Record deleted successfully"])
  else
    (records, [])

/-- The collection part of the source's `clearTable()`: after
window.confirm, empties the collection; a declined confirm is a no-op. -/
def clearTable (confirmed : Bool) (records : List BreakRecord) : List BreakRecord :=
  if confirmed then [] else records

/-- Number of records for exactly this name (case-sensitive) that are
currently active. -/
def activeCount (records : List BreakRecord) (name : String) : Nat :=
  (records.filter fun r => r.name == name && r.status == "active").length

/-- States of the record collection reachable from the empty collection
through the handlers the UI exposes (`recordTime` — which dispatches to
`startBreak`/`endBreak` —, `updateReason`, `deleteRecord`,
`clearTable`). -/
inductive Reachable : List BreakRecord → Prop where
  | empty : Reachable []
  | record (now : Nat) (input : String) {recs : List BreakRecord} :
      Reachable recs → Reachable (recordTime now input recs).1
  | reason (id txt : String) {recs : List BreakRecord} :
      Reachable recs → Reachable (updateReason id txt recs)
  | delete (c : Bool) (id : String) {recs : List BreakRecord} :
      Reachable recs → Reachable (deleteRecord c id recs).1
  | clear (c : Bool) {recs : List BreakRecord} :
      Reachable recs → Reachable (clearTable c recs)

/-- Gregorian date (year, month, day) of a day count since 1970-01-01,
by the standard era-based civil-from-days computation (the one used by
every `Date`-to-ISO conversion); total on `Nat`, i.e. on days from
1970-01-01 onwards. -/
def civilFromDays (z : Nat) : Nat × Nat × Nat :=
  let zs := z + 719468
  let era := zs / 146097
  let doe := zs % 146097
  let yoe := (doe - doe / 1460 + doe / 36524 - doe / 146096) / 365
  let y := yoe + era * 400
  let doy := doe - (365 * yoe + yoe / 4 - yoe / 100)
  let mp := (5 * doy + 2) / 153
  let d := doy - (153 * mp + 2) / 5 + 1
  let m := if mp < 10 then mp + 3 else mp - 9
  (if m ≤ 2 then y + 1 else y, m, d)

/-- Day count since 1970-01-01 of a Gregorian date, inverse of
`civilFromDays` (for dates from 1970-01-01 onwards). -/
def daysFromCivil (y m d : Nat) : Nat :=
  let ys := y - (if m ≤ 2 then 1 else 0)
  let era := ys / 400
  let yoe := ys % 400
  let doy := (153 * (if m > 2 then m - 3 else m + 9) + 2) / 5 + d - 1
  let doe := yoe * 365 + yoe / 4 - yoe / 100 + doy
  era * 146097 + doe - 719468

/-- Character list of the ISO-8601 string `YYYY-MM-DDTHH:MM:SS.mmmZ`
for an epoch-millisecond timestamp. -/
def isoChars (t : Nat) : List Char :=
  natToDigits 4 (civilFromDays (t / 86400000)).1 ++ '-' ::
    (natToDigits 2 (civilFromDays (t / 86400000)).2.1 ++ '-' ::
      (natToDigits 2 (civilFromDays (t / 86400000)).2.2 ++ 'T' ::
        (natToDigits 2 (t / 3600000 % 24) ++ ':' ::
          (natToDigits 2 (t / 60000 % 60) ++ ':' ::
            (natToDigits 2 (t / 1000 % 60) ++ '.' ::
              (natToDigits 3 (t % 1000) ++ ['Z']))))))

/-- Models the platform `Date` serialization used by `JSON.stringify`
(`Date.prototype.toISOString`): the UTC ISO-8601 string of the
timestamp, for timestamps up to year 9999 (the range of the simple ISO
format). -/
def toISOString (t : Nat) : String := String.mk (isoChars t)

/-- Consumes one expected literal character from the input. -/
def expectChar (c : Char) : List Char → Option (List Char)
  | x :: xs => if x == c then some xs else none
  | [] => none

/-- Parses the character list of an ISO-8601 string
`YYYY-MM-DDTHH:MM:SS.mmmZ` back into epoch milliseconds.  Models the
platform `new Date(isoString)` on the strings `toISOString` produces
(the parser is lenient about digit ranges; `new Date` accepts further
formats that never arise on the load path). -/
def parseChars (cs : List Char) : Option Nat := do
  let y := readDigits (cs.take 4)
  let r1 ← expectChar '-' (cs.drop 4)
  let mo := readDigits (r1.take 2)
  let r2 ← expectChar '-' (r1.drop 2)
  let d := readDigits (r2.take 2)
  let r3 ← expectChar 'T' (r2.drop 2)
  let h := readDigits (r3.take 2)
  let r4 ← expectChar ':' (r3.drop 2)
  let mi := readDigits (r4.take 2)
  let r5 ← expectChar ':' (r4.drop 2)
  let s := readDigits (r5.take 2)
  let r6 ← expectChar '.' (r5.drop 2)
  let ms := readDigits (r6.take 3)
  let r7 ← expectChar 'Z' (r6.drop 3)
  if r7 = [] then
    some (daysFromCivil y mo d * 86400000 + h * 3600000 + mi * 60000 + s * 1000 + ms)
  else
    none

/-- Models `new Date(s)` on an ISO string: `none` stands for an Invalid
Date. -/
def parseISO (s : String) : Option Nat := parseChars s.data

/-- One record of the persisted JSON array: the shape `JSON.stringify`
writes and `JSON.parse` returns on the load path — every `BreakRecord`
field as-is except the `Date` fields, which are ISO strings (`endTime`
absent when the break is active, since `JSON.stringify` drops
`undefined` properties). -/
structure PersistedRecord where
  id : String
  name : String
  start : String
  «end» : String
  duration : String
  reason : String
  startTime : String
  endTime : Option String
  status : String
deriving DecidableEq, Repr

/-- The save path for one record: the persisted shape of a
`BreakRecord`, with timestamps serialized by `toISOString`. -/
def serializeRecord (r : BreakRecord) : PersistedRecord :=
  { id := r.id
    name := r.name
    start := r.start
    «end» := r.«end»
    duration := r.duration
    reason := r.reason
    startTime := toISOString r.startTime
    endTime := r.endTime.map toISOString
    status := r.status }

/-- The load path for one record, from the source's
`parsed.map(record => ({...record, startTime: new Date(record.startTime),
endTime: record.endTime ? new Date(record.endTime) : undefined}))`:
every field is kept and the timestamps are reconstructed from their
string form (a falsy — empty — `endTime` string yields no end time).
`none` models a reconstruction that would produce an Invalid Date. -/
def reconstructRecord (p : PersistedRecord) : Option BreakRecord :=
  match parseISO p.startTime with
  | none => none
  | some st =>
    let base : Option Nat → BreakRecord := fun et =>
      { id := p.id
        name := p.name
        start := p.start
        «end» := p.«end»
        duration := p.duration
        reason := p.reason
        startTime := st
        endTime := et
        status := p.status }
    match p.endTime with
    | none => some (base none)
    | some es =>
      if es == "" then some (base none)
      else
        match parseISO es with
        | none => none
        | some et => some (base (some et))

/-- The save path over the whole collection: the persisted JSON array,
record by record. -/
def serializeRecords (records : List BreakRecord) : List PersistedRecord :=
  records.map serializeRecord

/-- The load path over the whole collection. -/
def loadRecords (ps : List PersistedRecord) : Option (List BreakRecord) :=
  ps.mapM reconstructRecord

/-- JSON string-body escaping of the characters the collection can
actually contain; `JSON.stringify` additionally escapes control
characters, which changes nothing below (only the serialization of the
empty collection is ever compared against a literal). -/
def jsonEscape : List Char → List Char
  | [] => []
  | c :: cs =>
      (if c = '"' then ['\\', '"'] else if c = '\\' then ['\\', '\\'] else [c]) ++ jsonEscape cs

/-- A JSON string literal. -/
def renderString (s : String) : String := "\"" ++ String.mk (jsonEscape s.data) ++ "\""

/-- The JSON object text of one persisted record, keys in the insertion
order the source produces (`endTime`, added by the `endBreak` spread,
comes last and is omitted while absent). -/
def renderPersisted (p : PersistedRecord) : String :=
  "\x7b\"id\":" ++ renderString p.id ++
  ",\"name\":" ++ renderString p.name ++
  ",\"start\":" ++ renderString p.start ++
  ",\"end\":" ++ renderString p.«end» ++
  ",\"duration\":" ++ renderString p.duration ++
  ",\"reason\":" ++ renderString p.reason ++
  ",\"startTime\":" ++ renderString p.startTime ++
  ",\"status\":" ++ renderString p.status ++
  (match p.endTime with
   | none => ""
   | some e => ",\"endTime\":" ++ renderString e) ++
  "\x7d"

/-- Models `JSON.stringify(breakRecords)`: the persisted text of the
whole collection. -/
def stringifyRecords (records : List BreakRecord) : String :=
  "[" ++ String.intercalate "," ((serializeRecords records).map renderPersisted) ++ "]"

/-- The in-memory collection together with the value persisted under the
`breakTimeTrackerData` local-storage key (`none` = key absent). -/
structure AppState where
  records : List BreakRecord
  stored : Option String
deriving DecidableEq, Repr

/-- The save effect of the source (`useEffect` on `breakRecords`):
whenever the collection changes, its full serialization is written to
the local-storage key. -/
def saveEffect (st : AppState) : AppState :=
  ⟨st.records, some (stringifyRecords st.records)⟩

/-- The source's `clearTable()` at the level of the application state:
after confirmation the handler empties the collection and removes the
persisted key, and then — because the collection changed — the save
effect runs and writes the serialization of the now-empty collection
back under the key.  A declined confirm is a no-op. -/
def clearTableApp (confirmed : Bool) (st : AppState) : AppState :=
  if confirmed then saveEffect ⟨clearTable true st.records, none⟩ else st

/-! Helper lemmas. -/

theorem natToDigits_length (w : Nat) : ∀ n, (natToDigits w n).length = w := by
  induction w with
  | zero => intro n; rfl
  | succ w ih => intro n; simp [natToDigits, ih]

theorem digitChar_toNat : ∀ d, d < 10 → (Char.ofNat (48 + d)).toNat = 48 + d := by decide

theorem foldl_natToDigits (w : Nat) : ∀ n a,
    List.foldl (fun a c => 10 * a + (c.toNat - 48)) a (natToDigits w n) =
      a * 10 ^ w + n % 10 ^ w := by
  induction w with
  | zero => intro n a; simp [natToDigits, Nat.mod_one]
  | succ w ih =>
    intro n a
    rw [natToDigits, List.foldl_append, ih]
    simp only [List.foldl_cons, List.foldl_nil]
    rw [digitChar_toNat (n % 10) (Nat.mod_lt n (by norm_num))]
    have h1 : 48 + n % 10 - 48 = n % 10 := by omega
    rw [h1, pow_succ', Nat.mod_mul]
    ring

theorem readDigits_natToDigits (w n : Nat) (h : n < 10 ^ w) :
    readDigits (natToDigits w n) = n := by
  unfold readDigits
  rw [foldl_natToDigits, Nat.mod_eq_of_lt h, Nat.zero_mul, Nat.zero_add]

set_option maxHeartbeats 8000000 in
theorem yearOfEra_bounds (doe yoe : Nat) (h : doe < 146097)
    (hy : yoe = (doe - doe / 1460 + doe / 36524 - doe / 146096) / 365) :
    yoe ≤ 399 ∧ 365 * yoe + yoe / 4 - yoe / 100 ≤ doe ∧
      doe - (365 * yoe + yoe / 4 - yoe / 100) ≤ 365 := by
  obtain ⟨k, hk⟩ : ∃ k, k = doe / 1460 := ⟨_, rfl⟩
  obtain ⟨e, he⟩ : ∃ e, e = doe / 36524 := ⟨_, rfl⟩
  rw [← hk, ← he] at hy
  have hkb : k ≤ 100 := by omega
  have hkb0 : 1460 * k ≤ doe ∧ doe < 1460 * k + 1460 := by omega
  have heb : e ≤ 4 := by omega
  interval_cases k <;> first
  | omega
  | (interval_cases e <;> omega)

theorem monthDay_bounds (doy mp : Nat) (h : doy ≤ 365)
    (hmp : mp = (5 * doy + 2) / 153) :
    mp ≤ 11 ∧ (153 * mp + 2) / 5 ≤ doy ∧ doy - (153 * mp + 2) / 5 ≤ 30 := by
  omega

set_option maxHeartbeats 1000000 in
theorem daysFromCivil_inverse (z y m d : Nat) (h : civilFromDays z = (y, m, d)) :
    daysFromCivil y m d = z ∧ 1 ≤ m ∧ m ≤ 12 ∧ 1 ≤ d ∧ d ≤ 31 ∧
      (z ≤ 2932896 → y ≤ 9999) := by
  simp only [civilFromDays, Prod.mk.injEq] at h
  obtain ⟨hy, hm, hd⟩ := h
  set doe := (z + 719468) % 146097 with hdoe
  set yoe := (doe - doe / 1460 + doe / 36524 - doe / 146096) / 365 with hyoe
  set doy := doe - (365 * yoe + yoe / 4 - yoe / 100) with hdoy
  set mp := (5 * doy + 2) / 153 with hmp
  have h2 := yearOfEra_bounds doe yoe (by omega) hyoe
  have h3 := monthDay_bounds doy mp (by omega) hmp
  subst hy hm hd
  simp only [daysFromCivil]
  by_cases hmp10 : mp < 10
  · simp only [if_pos hmp10]
    simp only [if_neg (show ¬(mp + 3 ≤ 2) by omega), if_pos (show mp + 3 > 2 by omega)]
    rw [Nat.sub_zero, Nat.add_sub_cancel]
    rw [show (yoe + (z + 719468) / 146097 * 400) / 400 = (z + 719468) / 146097 by omega]
    rw [show (yoe + (z + 719468) / 146097 * 400) % 400 = yoe by omega]
    omega
  · simp only [if_neg hmp10]
    have hmp11 : mp ≤ 11 := h3.1
    simp only [if_pos (show mp - 9 ≤ 2 by omega), if_neg (show ¬(mp - 9 > 2) by omega)]
    rw [show mp - 9 + 9 = mp by omega, Nat.add_sub_cancel]
    rw [show (yoe + (z + 719468) / 146097 * 400) / 400 = (z + 719468) / 146097 by omega]
    rw [show (yoe + (z + 719468) / 146097 * 400) % 400 = yoe by omega]
    omega

theorem expectChar_cons (c : Char) (xs : List Char) : expectChar c (c :: xs) = some xs := by
  simp [expectChar]

set_option maxHeartbeats 1000000 in
theorem parseChars_structured (y mo d h mi s ms : Nat)
    (hy : y < 10000) (hmo : mo < 100) (hd : d < 100) (hh : h < 100)
    (hmi : mi < 100) (hs : s < 100) (hms : ms < 1000) :
    parseChars (natToDigits 4 y ++ '-' ::
      (natToDigits 2 mo ++ '-' ::
        (natToDigits 2 d ++ 'T' ::
          (natToDigits 2 h ++ ':' ::
            (natToDigits 2 mi ++ ':' ::
              (natToDigits 2 s ++ '.' ::
                (natToDigits 3 ms ++ ['Z']))))))) =
      some (daysFromCivil y mo d * 86400000 + h * 3600000 + mi * 60000 + s * 1000 + ms) := by
  unfold parseChars
  rw [List.take_left' (natToDigits_length 4 y), List.drop_left' (natToDigits_length 4 y)]
  rw [expectChar_cons]
  simp only [Option.bind_eq_bind, Option.some_bind]
  rw [List.take_left' (natToDigits_length 2 mo), List.drop_left' (natToDigits_length 2 mo)]
  rw [expectChar_cons]
  simp only [Option.some_bind]
  rw [List.take_left' (natToDigits_length 2 d), List.drop_left' (natToDigits_length 2 d)]
  rw [expectChar_cons]
  simp only [Option.some_bind]
  rw [List.take_left' (natToDigits_length 2 h), List.drop_left' (natToDigits_length 2 h)]
  rw [expectChar_cons]
  simp only [Option.some_bind]
  rw [List.take_left' (natToDigits_length 2 mi), List.drop_left' (natToDigits_length 2 mi)]
  rw [expectChar_cons]
  simp only [Option.some_bind]
  rw [List.take_left' (natToDigits_length 2 s), List.drop_left' (natToDigits_length 2 s)]
  rw [expectChar_cons]
  simp only [Option.some_bind]
  rw [List.take_left' (natToDigits_length 3 ms), List.drop_left' (natToDigits_length 3 ms)]
  rw [expectChar_cons]
  simp only [Option.some_bind]
  rw [readDigits_natToDigits 4 y (by norm_num; omega),
    readDigits_natToDigits 2 mo (by norm_num; omega),
    readDigits_natToDigits 2 d (by norm_num; omega),
    readDigits_natToDigits 2 h (by norm_num; omega),
    readDigits_natToDigits 2 mi (by norm_num; omega),
    readDigits_natToDigits 2 s (by norm_num; omega),
    readDigits_natToDigits 3 ms (by norm_num; omega)]
  simp

theorem parseISO_toISOString (t : Nat) (ht : t < 253402300800000) :
    parseISO (toISOString t) = some t := by
  rcases hP : civilFromDays (t / 86400000) with ⟨y, mo, d⟩
  obtain ⟨hdays, hmo1, hmo2, hd1, hd2, hy9⟩ := daysFromCivil_inverse (t / 86400000) y mo d hP
  have hy : y < 10000 := by have := hy9 (by omega); omega
  show parseChars (isoChars t) = some t
  unfold isoChars
  simp only [hP]
  rw [parseChars_structured y mo d (t / 3600000 % 24) (t / 60000 % 60) (t / 1000 % 60)
    (t % 1000) hy (by omega) (by omega) (by omega) (by omega) (by omega) (by omega)]
  rw [hdays]
  exact congrArg some (by omega)

theorem toISOString_beq_empty (t : Nat) : (toISOString t == "") = false := by
  refine beq_eq_false_iff_ne.mpr fun h => ?_
  have hd : (toISOString t).data = ("" : String).data := congrArg String.data h
  have hl := congrArg List.length hd
  simp [toISOString, isoChars, natToDigits_length] at hl

theorem reconstructRecord_serializeRecord (r : BreakRecord)
    (h1 : r.startTime < 253402300800000)
    (h2 : r.endTime.getD 0 < 253402300800000) :
    reconstructRecord (serializeRecord r) = some r := by
  obtain ⟨i, nm, st, ed, du, rs, t1, t2, sta⟩ := r
  simp only [serializeRecord, reconstructRecord] at *
  rw [parseISO_toISOString t1 h1]
  cases t2 with
  | none => simp
  | some e =>
    simp only [Option.map_some', Option.getD_some] at *
    rw [toISOString_beq_empty]
    simp only [Bool.false_eq_true, if_false]
    rw [parseISO_toISOString e h2]

/-- C5: serializing any record collection to the persisted JSON form
(timestamps as ISO strings) and reloading it through the load path gives
back records with identical field values; `startTime` is reconstructed
as an equal timestamp and `endTime` is reconstructed when present and
absent when absent.  The timestamps are bounded by the range of the
simple ISO-8601 format (years up to 9999), which covers every value
`new Date()` produces. -/
theorem loadRecords_serializeRecords (recs : List BreakRecord)
    (h : ∀ r ∈ recs, r.startTime < 253402300800000 ∧
      r.endTime.getD 0 < 253402300800000) :
    loadRecords (serializeRecords recs) = some recs := by
  induction recs with
  | nil => rfl
  | cons r rs ih =>
    have hr := h r (List.mem_cons_self r rs)
    simp only [serializeRecords, loadRecords, List.map_cons, List.mapM_cons]
    rw [reconstructRecord_serializeRecord r hr.1 hr.2]
    have ih' := ih fun x hx => h x (List.mem_cons_of_mem r hx)
    simp only [serializeRecords, loadRecords] at ih'
    rw [ih']
    rfl

theorem activeCount_updateReason (id txt name : String) (recs : List BreakRecord) :
    activeCount (updateReason id txt recs) name = activeCount recs name := by
  unfold activeCount updateReason
  induction recs with
  | nil => rfl
  | cons r rs ih =>
    simp only [List.map_cons, List.filter_cons]
    cases hid : r.id == id <;> simp only [hid, Bool.false_eq_true, if_false, if_true]
    · cases hp : (r.name == name && r.status == "active") <;>
        simp_all
    · cases hp : (r.name == name && r.status == "active") <;>
        simp_all

theorem endBreakUpdate_not_active (now : Nat) (n : String) (r : BreakRecord)
    (hm : (r.name == n && r.status == "active") = true) :
    ((endBreakUpdate now n r).1.status == "active") = false := by
  simp only [endBreakUpdate, hm, if_true]
  split <;> simp

theorem endBreakUpdate_skip (now : Nat) (n : String) (r : BreakRecord)
    (hm : (r.name == n && r.status == "active") = false) :
    endBreakUpdate now n r = (r, []) := by
  simp [endBreakUpdate, hm]

theorem activeCount_endBreak_le (now : Nat) (n name : String) (recs : List BreakRecord) :
    activeCount (endBreak now n recs).1 name ≤ activeCount recs name := by
  unfold activeCount endBreak
  dsimp only
  induction recs with
  | nil => simp
  | cons r rs ih =>
    simp only [List.map_cons, List.filter_cons]
    cases hm : (r.name == n && r.status == "active") with
    | true =>
      have h1 := endBreakUpdate_not_active now n r hm
      simp only [h1, Bool.and_false, Bool.false_eq_true, if_false]
      cases hp : (r.name == name && r.status == "active") <;>
        simp only [hp, Bool.false_eq_true, if_false, if_true, List.length_cons] <;> omega
    | false =>
      rw [endBreakUpdate_skip now n r hm]
      cases hp : (r.name == name && r.status == "active") <;> simp [hp] <;> omega

theorem activeCount_deleteRecord_le (c : Bool) (id name : String)
    (recs : List BreakRecord) :
    activeCount (deleteRecord c id recs).1 name ≤ activeCount recs name := by
  unfold deleteRecord activeCount
  cases c
  · simp
  · simp only [if_true]
    exact List.Sublist.length_le (List.Sublist.filter _ (List.filter_sublist recs))

theorem activeCount_eq_zero_of_find_none (n : String) (recs : List BreakRecord)
    (h : (recs.find? fun r => r.name == n && r.status == "active").isSome = false) :
    activeCount recs n = 0 := by
  unfold activeCount
  rw [List.length_eq_zero, List.filter_eq_nil_iff]
  intro a ha
  rcases hf : recs.find? fun r => r.name == n && r.status == "active" with _ | v
  · have := List.find?_eq_none.mp hf a ha
    simpa using this
  · rw [hf] at h
    simp at h

theorem activeCount_recordTime (now : Nat) (input name : String)
    (recs : List BreakRecord) (h : activeCount recs name ≤ 1) :
    activeCount (recordTime now input recs).1 name ≤ 1 := by
  unfold recordTime
  dsimp only
  cases hv : (validateAssociateName recs (jsTrim input)).1 with
  | false => simpa [hv] using h
  | true =>
    simp only [hv, if_true]
    cases hf : (recs.find? fun r => r.name == jsTrim input && r.status == "active").isSome with
    | true =>
      simp only [hf, if_true]
      exact le_trans (activeCount_endBreak_le now (jsTrim input) name recs) h
    | false =>
      simp only [hf, Bool.false_eq_true, if_false, startBreak]
      unfold activeCount
      rw [List.filter_append, List.length_append]
      cases hn : (jsTrim input == name) with
      | false =>
        have : activeCount recs name ≤ 1 := h
        unfold activeCount at this
        simp [hn, this]
      | true =>
        have heq : jsTrim input = name := by simpa using hn
        have h0 : activeCount recs name = 0 := by
          rw [← heq]
          exact activeCount_eq_zero_of_find_none (jsTrim input) recs hf
        unfold activeCount at h0
        simp [hn, h0]

/-- C4: in every state reachable from the empty collection through the
user-facing operations (`recordTime` — the sole caller of `startBreak`
and `endBreak` —, `updateReason`, `deleteRecord`, `clearTable`), each
associate name has at most one record with status `"active"`. -/
theorem reachable_activeCount_le_one (recs : List BreakRecord)
    (h : Reachable recs) (name : String) : activeCount recs name ≤ 1 := by
  induction h with
  | empty => simp [activeCount]
  | record now input hr ih => exact activeCount_recordTime now input name _ ih
  | reason id txt hr ih => rw [activeCount_updateReason]; exact ih
  | delete c id hr ih =>
    exact le_trans (activeCount_deleteRecord_le c id name _) ih
  | clear c hr ih =>
    cases c
    · simpa [clearTable] using ih
    · simp [clearTable, activeCount]

/-- Witness for C4 at a concrete reachable state. -/
theorem reachable_activeCount_le_one_witness :
    activeCount (recordTime 0 "Alice" []).1 "Alice" ≤ 1 :=
  reachable_activeCount_le_one _ (Reachable.record 0 "Alice" Reachable.empty) "Alice"

/-- Witness for C5 at a concrete two-record collection (one ended, one
active). -/
theorem loadRecords_serializeRecords_witness :
    loadRecords (serializeRecords
      [⟨"Alice-0", "Alice", "s", "e", "29m 0s", "why", 0, some 1740000, "completed"⟩,
       ⟨"Bob-5", "Bob", "s", "", "", "", 5, none, "active"⟩]) =
      some [⟨"Alice-0", "Alice", "s", "e", "29m 0s", "why", 0, some 1740000, "completed"⟩,
       ⟨"Bob-5", "Bob", "s", "", "", "", 5, none, "active"⟩] :=
  loadRecords_serializeRecords _ (by decide)

/-- C1 fails on the code: starting, ending and starting again a break
for "Alice" leaves a state with two records for the name, the second
active; a further `recordTime` submission for "Alice" is rejected by
`validateAssociateName` (which runs before the active-break lookup), so
it neither ends the open break nor starts one — the open break can
never be closed through the UI.  This theorem evaluates the code at
that failing input. -/
theorem recordTime_third_submission_stuck :
    activeCount (recordTime 120000 "Alice" (recordTime 60000 "Alice"
        (recordTime 0 "Alice" []).1).1).1 "Alice" = 1 ∧
    Reachable (recordTime 120000 "Alice" (recordTime 60000 "Alice"
        (recordTime 0 "Alice" []).1).1).1 ∧
    (recordTime 180000 "Alice" (recordTime 120000 "Alice" (recordTime 60000 "Alice"
        (recordTime 0 "Alice" []).1).1).1).1 =
      (recordTime 120000 "Alice" (recordTime 60000 "Alice"
        (recordTime 0 "Alice" []).1).1).1 ∧
    (recordTime 180000 "Alice" (recordTime 120000 "Alice" (recordTime 60000 "Alice"
        (recordTime 0 "Alice" []).1).1).1).2 =
      [toastError "Alice has already been used twice. Cannot add more entries."] :=
  ⟨by decide,
   Reachable.record 120000 "Alice" (Reachable.record 60000 "Alice"
     (Reachable.record 0 "Alice" Reachable.empty)),
   by decide, by decide⟩

/-- C9: the active-break lookup in `recordTime` is case-sensitive while
the twice-only limit is case-insensitive, so submitting "alice" while
"Alice" has an open break starts a second break instead of ending the
open one: the reachable state holds two simultaneously active records
whose names differ only in letter case. -/
theorem recordTime_case_mismatch_double_active :
    ((recordTime 60000 "alice" (recordTime 0 "Alice" []).1).1).map
        (fun r => (r.name, r.status)) = [("Alice", "active"), ("alice", "active")] ∧
    "Alice" ≠ "alice" ∧
    jsToLower "Alice" = jsToLower "alice" ∧
    (recordTime 60000 "alice" (recordTime 0 "Alice" []).1).1.length =
      (recordTime 0 "Alice" []).1.length + 1 ∧
    Reachable (recordTime 60000 "alice" (recordTime 0 "Alice" []).1).1 :=
  ⟨by decide, by decide, by decide, by decide,
   Reachable.record 60000 "alice" (Reachable.record 0 "Alice" Reachable.empty)⟩

/-- C6 counterexample: the claim says the persisted key is absent after
a confirmed `clearAll`, but the save effect that follows the mutation
rewrites the key with the serialization of the empty collection, so the
key is present (holding `"[]"`), already from the empty state. -/
theorem clearTable_persisted_key_not_absent :
    ¬(clearTableApp true ⟨[], some "[x]"⟩).stored = none := by decide

/-- C6 (amended): after a confirmed `clearAll`, the in-memory collection
is empty and the persisted key holds the serialization `"[]"` of the
empty collection — the handler removes the key but the
mirror-to-storage effect immediately rewrites it. -/
theorem clearTable_empties_and_stores_empty (st : AppState) :
    (clearTableApp true st).records = [] ∧
    (clearTableApp true st).stored = some "[]" :=
  ⟨rfl, rfl⟩

/-- C7: `formatDuration` renders `"{minutes}m {seconds}s"` below one
hour and `"{hours}h {minutes}m {seconds}s"` from one hour on, with
floor division at each unit boundary; in particular
`formatDuration 0 = "0m 0s"` and `formatDuration 3661000 = "1h 1m 1s"`. -/
theorem formatDuration_spec (ms : Nat) :
    formatDuration ms =
      (if ms < 3600000 then
        toString (ms / 60000) ++ "m " ++ toString (ms % 60000 / 1000) ++ "s"
      else
        toString (ms / 3600000) ++ "h " ++ toString (ms % 3600000 / 60000) ++ "m " ++
          toString (ms % 60000 / 1000) ++ "s") ∧
    formatDuration 0 = "0m 0s" ∧ formatDuration 3661000 = "1h 1m 1s" := by
  refine ⟨?_, by decide, by decide⟩
  unfold formatDuration
  by_cases h : ms < 3600000
  · rw [if_pos h, Nat.div_eq_of_lt h]
    rw [Nat.mod_eq_of_lt h]
    simp
  · rw [if_neg h]
    have h0 : 0 < ms / 3600000 := Nat.div_pos (le_of_not_lt h) (by norm_num)
    simp [h0]

/-- C8: the duration color uses exactly the 30- and 32-minute thresholds
with strict comparisons on the floored minute count — strictly above 30
is the warning tier, strictly above 32 the critical tier, and exactly
30 or 32 minutes fall in the band below; an active status picks the
lighter palette, any other status the completed palette. -/
theorem getDurationColor_spec (ms : Nat) (status : String) :
    getDurationColor ms status =
      (if 32 < ms / 60000 then
        (if status = "active" then "bg-red-100 text-red-800 border-red-200"
         else "bg-red-500 text-white")
       else if 30 < ms / 60000 then
        (if status = "active" then "bg-orange-100 text-orange-800 border-orange-200"
         else "bg-orange-500 text-white")
       else
        (if status = "active" then "bg-blue-100 text-blue-800 border-blue-200"
         else "bg-green-100 text-green-800")) ∧
    getDurationColor 1800000 "active" = "bg-blue-100 text-blue-800 border-blue-200" ∧
    getDurationColor 1800000 "completed" = "bg-green-100 text-green-800" ∧
    getDurationColor 1920000 "active" = "bg-orange-100 text-orange-800 border-orange-200" ∧
    getDurationColor 1920000 "completed" = "bg-orange-500 text-white" ∧
    getDurationColor 1980000 "active" = "bg-red-100 text-red-800 border-red-200" ∧
    getDurationColor 1980000 "completed" = "bg-red-500 text-white" := by
  refine ⟨?_, by decide, by decide, by decide, by decide, by decide, by decide⟩
  by_cases ha : status = "active" <;> simp [getDurationColor, ha]

/-- C2: a submission whose name already has two records
(case-insensitively), and likewise a submission whose name is empty
after trimming, is rejected: the collection is unchanged and exactly
one error toast (the validation message) is emitted. -/
theorem recordTime_rejected_no_change (now : Nat) (input : String)
    (recs : List BreakRecord)
    (h : jsTrim input = "" ∨
      2 ≤ (recs.filter fun r => jsToLower r.name == jsToLower (jsTrim input)).length) :
    (recordTime now input recs).1 = recs ∧
      ∃ t, (recordTime now input recs).2 = [t] ∧ t.kind = ToastKind.error := by
  unfold recordTime validateAssociateName
  dsimp only
  by_cases h0 : jsTrim (jsTrim input) = ""
  · rw [if_pos h0]
    exact ⟨rfl, ⟨toastError "Please enter an associate name", rfl, rfl⟩⟩
  · rw [if_neg h0]
    rcases h with h | h
    · rw [h] at h0
      exact absurd (by decide) h0
    · rw [if_pos h]
      exact ⟨rfl, ⟨toastError (jsTrim input ++
        " has already been used twice. Cannot add more entries."), rfl, rfl⟩⟩

/-- Witness for C2: a third submission for "Bob" with two existing
records is rejected and the collection is unchanged. -/
theorem recordTime_rejected_no_change_witness :
    (recordTime 9 "Bob"
      [⟨"Bob-1", "Bob", "", "", "", "", 0, some 1, "completed"⟩,
       ⟨"Bob-2", "Bob", "", "", "", "", 2, some 3, "completed"⟩]).1 =
      [⟨"Bob-1", "Bob", "", "", "", "", 0, some 1, "completed"⟩,
       ⟨"Bob-2", "Bob", "", "", "", "", 2, some 3, "completed"⟩] ∧
    ∃ t, (recordTime 9 "Bob"
      [⟨"Bob-1", "Bob", "", "", "", "", 0, some 1, "completed"⟩,
       ⟨"Bob-2", "Bob", "", "", "", "", 2, some 3, "completed"⟩]).2 = [t] ∧
      t.kind = ToastKind.error :=
  recordTime_rejected_no_change 9 "Bob" _ (Or.inr (by decide))

/-- C3: a record ended by the `endBreak` map body is classified from its
whole-minute duration — strictly above 32 minutes it is persisted as
`overtime` with an error notification, strictly above 30 and up to 32 it
is `completed` with a warning notification, and up to 30 it is
`completed` with a success notification; the closing conjuncts evaluate
the 30-, 31- and 33-minute boundary cases from the claim, and `endBreak`
itself maps this body over the collection. -/
theorem endBreak_status_classification (now : Nat) (nm : String) (r : BreakRecord)
    (recs : List BreakRecord) (hname : r.name = nm) (hstat : r.status = "active") :
    (32 < (now - r.startTime) / 60000 →
      (endBreakUpdate now nm r).1.status = "overtime" ∧
      (endBreakUpdate now nm r).2 = [toastError (nm ++ "'s break exceeded 32 minutes!")]) ∧
    (30 < (now - r.startTime) / 60000 ∧ (now - r.startTime) / 60000 ≤ 32 →
      (endBreakUpdate now nm r).1.status = "completed" ∧
      (endBreakUpdate now nm r).2 = [toastWarning (nm ++ "'s break exceeded 30 minutes")]) ∧
    ((now - r.startTime) / 60000 ≤ 30 →
      (endBreakUpdate now nm r).1.status = "completed" ∧
      (endBreakUpdate now nm r).2 = [toastSuccess ("Break ended for " ++ nm)]) ∧
    (endBreak now nm recs).1 = recs.map (fun x => (endBreakUpdate now nm x).1) ∧
    (endBreakUpdate 1800000 "A" ⟨"A-0", "A", "", "", "", "", 0, none, "active"⟩).1.status
      = "completed" ∧
    (endBreakUpdate 1800000 "A" ⟨"A-0", "A", "", "", "", "", 0, none, "active"⟩).2
      = [toastSuccess "Break ended for A"] ∧
    (endBreakUpdate 1860000 "A" ⟨"A-0", "A", "", "", "", "", 0, none, "active"⟩).1.status
      = "completed" ∧
    (endBreakUpdate 1860000 "A" ⟨"A-0", "A", "", "", "", "", 0, none, "active"⟩).2
      = [toastWarning "A's break exceeded 30 minutes"] ∧
    (endBreakUpdate 1980000 "A" ⟨"A-0", "A", "", "", "", "", 0, none, "active"⟩).1.status
      = "overtime" ∧
    (endBreakUpdate 1980000 "A" ⟨"A-0", "A", "", "", "", "", 0, none, "active"⟩).2
      = [toastError "A's break exceeded 32 minutes!"] := by
  have hm : (r.name == nm && r.status == "active") = true := by simp [hname, hstat]
  refine ⟨?_, ?_, ?_, rfl, by decide, by decide, by decide, by decide, by decide, by decide⟩
  · intro h32
    unfold endBreakUpdate
    rw [hm]
    simp only [if_true]
    constructor
    · show (if (now - r.startTime) / 60000 > 32 then "overtime" else "completed") = "overtime"
      rw [if_pos h32]
    · show (if (now - r.startTime) / 60000 > 32 then _ else _) = _
      rw [if_pos h32]
  · intro h3032
    unfold endBreakUpdate
    rw [hm]
    simp only [if_true]
    constructor
    · show (if (now - r.startTime) / 60000 > 32 then "overtime" else "completed") = "completed"
      rw [if_neg (by omega)]
    · show (if (now - r.startTime) / 60000 > 32 then _
          else if (now - r.startTime) / 60000 > 30 then _ else _) = _
      rw [if_neg (by omega), if_pos h3032.1]
  · intro h30
    unfold endBreakUpdate
    rw [hm]
    simp only [if_true]
    constructor
    · show (if (now - r.startTime) / 60000 > 32 then "overtime" else "completed") = "completed"
      rw [if_neg (by omega)]
    · show (if (now - r.startTime) / 60000 > 32 then _
          else if (now - r.startTime) / 60000 > 30 then _ else _) = _
      rw [if_neg (by omega), if_neg (by omega)]

/-- Witness for C3 at a 33-minute break. -/
theorem endBreak_status_classification_witness :
    (endBreakUpdate 1980000 "A" ⟨"A-0", "A", "", "", "", "", 0, none, "active"⟩).1.status
      = "overtime" ∧
    (endBreakUpdate 1980000 "A" ⟨"A-0", "A", "", "", "", "", 0, none, "active"⟩).2
      = [toastError ("A" ++ "'s break exceeded 32 minutes!")] :=
  (endBreak_status_classification 1980000 "A"
    ⟨"A-0", "A", "", "", "", "", 0, none, "active"⟩ [] rfl rfl).1 (by norm_num)

/-- C10: `updateReason(id, text)` changes only the `reason` field of the
record whose id matches: the collection keeps its length and order,
every other field of every record is unchanged, non-matching records
are unchanged entirely, and when no record carries the id the whole
collection is unchanged. -/
theorem updateReason_frame (recs : List BreakRecord) (id txt : String) :
    (updateReason id txt recs).length = recs.length ∧
    (∀ (i : Nat) (r r' : BreakRecord), recs[i]? = some r →
      (updateReason id txt recs)[i]? = some r' →
      r'.id = r.id ∧ r'.name = r.name ∧ r'.start = r.start ∧ r'.«end» = r.«end» ∧
      r'.duration = r.duration ∧ r'.startTime = r.startTime ∧ r'.endTime = r.endTime ∧
      r'.status = r.status ∧
      (r.id = id → r'.reason = txt) ∧ (r.id ≠ id → r'.reason = r.reason)) ∧
    ((∀ r ∈ recs, r.id ≠ id) → updateReason id txt recs = recs) := by
  refine ⟨by simp [updateReason], ?_, ?_⟩
  · intro i r r' h1 h2
    unfold updateReason at h2
    rw [List.getElem?_map, h1, Option.map_some'] at h2
    have h2' : (if (r.id == id) = true then { r with reason := txt } else r) = r' :=
      Option.some.inj h2
    cases hid : r.id == id with
    | true =>
      rw [hid, if_pos rfl] at h2'
      subst h2'
      have hideq : r.id = id := by simpa using hid
      simp [hideq]
    | false =>
      rw [hid] at h2'
      simp only [Bool.false_eq_true, if_false] at h2'
      subst h2'
      have hidne : r.id ≠ id := by simpa using hid
      simp [hidne]
  · induction recs with
    | nil => intro _; rfl
    | cons a l ih =>
      intro hall
      have ha : (a.id == id) = false := by
        simpa using hall a (List.mem_cons_self a l)
      have ih' := ih fun r hr => hall r (List.mem_cons_of_mem a hr)
      unfold updateReason at ih' ⊢
      simp only [List.map_cons, ha, Bool.false_eq_true, if_false]
      rw [ih']

/-- Witness for C10: the matching record gets the new reason with all
other fields intact, and a collection without the id is unchanged. -/
theorem updateReason_frame_witness :
    updateReason "zz" "new"
      [⟨"b", "B", "s", "", "", "x", 0, none, "active"⟩] =
      [⟨"b", "B", "s", "", "", "x", 0, none, "active"⟩] ∧
    ∀ r' : BreakRecord, (updateReason "b" "new"
        [⟨"b", "B", "s", "", "", "x", 0, none, "active"⟩])[0]? = some r' →
      r'.reason = "new" ∧ r'.name = "B" :=
  ⟨(updateReason_frame [⟨"b", "B", "s", "", "", "x", 0, none, "active"⟩] "zz" "new").2.2
      (by decide),
   fun r' h2 => by
    have h := (updateReason_frame [⟨"b", "B", "s", "", "", "x", 0, none, "active"⟩]
      "b" "new").2.1 0 ⟨"b", "B", "s", "", "", "x", 0, none, "active"⟩ r' rfl h2
    exact ⟨h.2.2.2.2.2.2.2.2.1 rfl, h.2.1⟩⟩
